import Mathlib

/-!
# Many-instance quad rendering: batched assembly and per-frame call sequences

A shallow embedding of `src/main.cpp`:

* `bufferCirlce` (lines 141-163), the CPU-side assembler of Strategy B,
* the Strategy B frame body (lines 232-253) and `setupGpuBuffer` (lines 122-139),
* the Strategy A frame body (lines 221-230).

C arrays are modelled as memories addressed by the (signed) element offset from
the array base; every store is recorded, so that "which positions were written"
is a property of the embedded code and not of a separate description.
`float` arithmetic is kept abstract: the only float operation of the assembler is
`intLiteral + x`, embedded as `FloatModel.add (FloatModel.ofInt c) x`.
`int` cursors are unbounded integers: within the arrays of the program
(`OBJECTS = 10000` instances) they stay below `80000`, far from `2^31`.
A frame is embedded as the sequence of graphics calls it makes. `GL(...)`
(from `defines.hpp`) wraps a call without changing which call is made, and
`setUniformMat4` (from `shader.hpp`) is recorded as one call.
-/

set_option autoImplicit false

namespace RenderingBenchmark

/-! ## Constants of the translation unit -/

/-- `#define OBJECTS 10000` (line 24). -/
def OBJECTS : Nat := 10000

/-- `sizeof(float)` on the target platform. -/
def sizeofFloat : Nat := 4

/-- `sizeof(int)` on the target platform (also `sizeof(unsigned int)`). -/
def sizeofInt : Nat := 4

/-- Second argument of `glVertexAttribPointer(0, 2, GL_FLOAT, ...)` (line 138):
the number of floats that make one vertex. -/
def floatsPerVertex : Int := 2

/-- Conversion of an `int` value to `unsigned int` (assignment into `indices[...]`). -/
def toUnsigned (i : Int) : Nat := (i % 4294967296).toNat

/-! ## Float arithmetic used by the assembler -/

/-- The two float operations that `bufferCirlce` performs: conversion of an
integer literal and addition. -/
class FloatModel (F : Type) where
  ofInt : Int → F
  add : F → F → F

/-- Exact integer arithmetic as a float model, used to run the embedding on
concrete inputs. -/
instance : FloatModel Int where
  ofInt := fun i => i
  add := fun a b => a + b

/-! ## Memory -/

/-- A C array seen through a pointer: the cell at each element offset, together
with the offsets stored to so far (oldest first). -/
structure Mem (α : Type) where
  cells : Int → α
  writes : List Int

/-- The assignment `a[i] = v`. -/
def Mem.store {α : Type} (m : Mem α) (i : Int) (v : α) : Mem α :=
  { cells := fun p => if p = i then v else m.cells p
    writes := m.writes ++ [i] }

/-- The state touched by `bufferCirlce`: the two arrays behind `vertices` and
`indices` and the two cursors behind `vertexCount` and `indexCount`. -/
structure Buffers (F : Type) where
  vertices : Mem F
  indices : Mem Nat
  vertexCount : Int
  indexCount : Int

/-- Embedding of `bufferCirlce` (lines 141-163). -/
def bufferCirlce {F : Type} [FloatModel F] (x y : F) (s : Buffers F) : Buffers F :=
  let vertexC := s.vertexCount
  let indexC := s.indexCount
  let vertices := s.vertices
  let vertices := vertices.store (vertexC + 0) (FloatModel.add (FloatModel.ofInt (-1)) x)
  let vertices := vertices.store (vertexC + 1) (FloatModel.add (FloatModel.ofInt 1) y)
  let vertices := vertices.store (vertexC + 2) (FloatModel.add (FloatModel.ofInt 1) x)
  let vertices := vertices.store (vertexC + 3) (FloatModel.add (FloatModel.ofInt 1) y)
  let vertices := vertices.store (vertexC + 4) (FloatModel.add (FloatModel.ofInt (-1)) x)
  let vertices := vertices.store (vertexC + 5) (FloatModel.add (FloatModel.ofInt (-1)) y)
  let vertices := vertices.store (vertexC + 6) (FloatModel.add (FloatModel.ofInt 1) x)
  let vertices := vertices.store (vertexC + 7) (FloatModel.add (FloatModel.ofInt (-1)) y)
  let indices := s.indices
  let indices := indices.store (indexC + 0) (toUnsigned (1 + vertexC))
  let indices := indices.store (indexC + 1) (toUnsigned (3 + vertexC))
  let indices := indices.store (indexC + 2) (toUnsigned (2 + vertexC))
  let indices := indices.store (indexC + 3) (toUnsigned (0 + vertexC))
  let indices := indices.store (indexC + 4) (toUnsigned (1 + vertexC))
  let indices := indices.store (indexC + 5) (toUnsigned (2 + vertexC))
  { vertices := vertices
    indices := indices
    vertexCount := s.vertexCount + 8
    indexCount := s.indexCount + 6 }

/-- The loop of lines 234-236, one `bufferCirlce` call per instance offset.
The source runs it for `OBJECTS` instances, all at offset `(0, 0)`. -/
def assembleLoop {F : Type} [FloatModel F] (offs : List (F × F)) (s : Buffers F) : Buffers F :=
  offs.foldl (fun st o => bufferCirlce o.1 o.2 st) s

/-- The assignments `vertexCount = 0; indexCount = 0;` of lines 232-233. -/
def resetCursors {F : Type} (s : Buffers F) : Buffers F :=
  { s with vertexCount := 0, indexCount := 0 }

/-- Per-frame assembly of Strategy B (lines 232-236): reset both cursors, then
call `bufferCirlce` once per instance. -/
def assemble {F : Type} [FloatModel F] (offs : List (F × F)) (s : Buffers F) : Buffers F :=
  assembleLoop offs (resetCursors s)

/-- The instance set of the source: `OBJECTS` instances at `(0, 0)`. -/
def sourceInstances {F : Type} [FloatModel F] : List (F × F) :=
  List.replicate OBJECTS (FloatModel.ofInt 0, FloatModel.ofInt 0)

/-- CPU arrays holding zeros, cursors at zero, nothing stored yet. -/
def zeroBuffers : Buffers Int :=
  { vertices := { cells := fun _ => 0, writes := [] }
    indices := { cells := fun _ => 0, writes := [] }
    vertexCount := 0
    indexCount := 0 }

/-! ## Graphics calls -/

/-- The three uniform locations of the circle shader. -/
inductive Uniform where
  | uProjection
  | uView
  | uModel
  deriving DecidableEq, Repr

/-- Buffer binding points. -/
inductive Target where
  | arrayBuffer
  | elementArrayBuffer
  deriving DecidableEq, Repr

/-- The two vertex array objects of the program. -/
inductive VaoName where
  | squareVao
  | gpuBuffer
  deriving DecidableEq, Repr

/-- Usage hints of `glBufferData`. -/
inductive Usage where
  | staticDraw
  | dynamicDraw
  deriving DecidableEq, Repr

/-- The calls a frame (or a setup routine) makes, in program order; `M` is the
type of 4x4 matrices. -/
inductive Op (M : Type) where
  | genVertexArrays (vao : VaoName)
  | bindVertexArray (vao : VaoName)
  | genBuffers (n : Nat)
  | bindBuffer (target : Target)
  | bufferData (target : Target) (bytes : Nat) (usage : Usage)
  | enableVertexAttribArray (index : Nat)
  | vertexAttribPointer (index : Nat) (size : Nat) (strideBytes : Nat)
  | mapBufferRange (target : Target) (offset : Nat) (length : Nat)
  | memcpy (target : Target) (bytes : Nat)
  | unmapBuffer (target : Target)
  | useProgram
  | setUniformMat4 (loc : Uniform) (m : M)
  | drawElements (count : Int)
  deriving DecidableEq, Repr

/-- Embedding of `setupGpuBuffer` (lines 122-139). -/
def setupGpuBuffer {M : Type} : List (Op M) :=
  [ Op.genVertexArrays VaoName.gpuBuffer,
    Op.bindVertexArray VaoName.gpuBuffer,
    Op.genBuffers 2,
    Op.bindBuffer Target.arrayBuffer,
    Op.bufferData Target.arrayBuffer (sizeofFloat * 8 * OBJECTS) Usage.dynamicDraw,
    Op.bindBuffer Target.elementArrayBuffer,
    Op.bufferData Target.elementArrayBuffer (sizeofInt * 6 * OBJECTS) Usage.dynamicDraw,
    Op.enableVertexAttribArray 0,
    Op.vertexAttribPointer 0 2 (sizeofFloat * 2) ]

/-- Bytes allocated for a binding point by the `glBufferData` calls of a call
sequence (the last allocation wins). -/
def allocatedBytes {M : Type} : List (Op M) → Target → Option Nat
  | [], _ => none
  | Op.bufferData t bytes _ :: rest, target =>
      match allocatedBytes rest target with
      | some b => some b
      | none => if t = target then some bytes else none
  | _ :: rest, target => allocatedBytes rest target

/-- The matrices a frame reads. -/
structure Matrices (M : Type) where
  projection : M
  view : M
  /-- Strategy A: `glm::scale(glm::mat4(1), glm::vec3(radius))` (line 195). -/
  nonTranslatedModel : M
  /-- The function `m ↦ glm::translate(m, glm::vec3(0, 0, 0))` (line 227). -/
  translateZero : M → M
  /-- Strategy B: `glm::scale(glm::mat4(1), glm::vec3(radius))` (line 204). -/
  model : M

/-- Body of the loop of lines 226-230, for one instance. -/
def strategyADraw {M : Type} (mats : Matrices M) : List (Op M) :=
  [ Op.setUniformMat4 Uniform.uModel (mats.translateZero mats.nonTranslatedModel),
    Op.drawElements 6 ]

/-- The loop of lines 226-230 run for `n` instances. -/
def strategyALoop {M : Type} (mats : Matrices M) : Nat → List (Op M)
  | 0 => []
  | n + 1 => strategyADraw mats ++ strategyALoop mats n

/-- Strategy A frame body (lines 222-230) for `n` instances; the source runs
it with `n = OBJECTS`. -/
def strategyAFrame {M : Type} (mats : Matrices M) (n : Nat) : List (Op M) :=
  [ Op.useProgram,
    Op.setUniformMat4 Uniform.uProjection mats.projection,
    Op.setUniformMat4 Uniform.uView mats.view,
    Op.bindVertexArray VaoName.squareVao ] ++ strategyALoop mats n

/-- The calls of lines 238-253, after the assembly left `indexCount`. -/
def strategyBSubmit {M : Type} (mats : Matrices M) (indexCount : Int) : List (Op M) :=
  [ Op.bindVertexArray VaoName.gpuBuffer,
    Op.mapBufferRange Target.arrayBuffer 0 (sizeofFloat * 8 * OBJECTS),
    Op.memcpy Target.arrayBuffer (sizeofFloat * 8 * OBJECTS),
    Op.unmapBuffer Target.arrayBuffer,
    Op.mapBufferRange Target.elementArrayBuffer 0 (sizeofInt * 6 * OBJECTS),
    Op.memcpy Target.elementArrayBuffer (sizeofInt * 6 * OBJECTS),
    Op.unmapBuffer Target.elementArrayBuffer,
    Op.useProgram,
    Op.setUniformMat4 Uniform.uView mats.view,
    Op.setUniformMat4 Uniform.uProjection mats.projection,
    Op.setUniformMat4 Uniform.uModel mats.model,
    Op.drawElements indexCount ]

/-- Strategy B frame body (lines 232-253) for the instance offsets `offs`: the
CPU state after the assembly and the calls issued. The source runs it with
`sourceInstances`. -/
def strategyBFrame {F M : Type} [FloatModel F] (mats : Matrices M) (offs : List (F × F))
    (s : Buffers F) : Buffers F × List (Op M) :=
  let s1 := assemble offs s
  (s1, strategyBSubmit mats s1.indexCount)

/-- The instances the loop of lines 234-236 assembles when the macro `OBJECTS`
has the value `objects`: `objects` calls `bufferCirlce(0, 0, ...)`. -/
def instancesFor {F : Type} [FloatModel F] (objects : Nat) : List (F × F) :=
  List.replicate objects (FloatModel.ofInt 0, FloatModel.ofInt 0)

/-- The calls of lines 238-253 when the macro `OBJECTS` has the value `objects`. -/
def strategyBSubmitFor {M : Type} (objects : Nat) (mats : Matrices M) (indexCount : Int) :
    List (Op M) :=
  [ Op.bindVertexArray VaoName.gpuBuffer,
    Op.mapBufferRange Target.arrayBuffer 0 (sizeofFloat * 8 * objects),
    Op.memcpy Target.arrayBuffer (sizeofFloat * 8 * objects),
    Op.unmapBuffer Target.arrayBuffer,
    Op.mapBufferRange Target.elementArrayBuffer 0 (sizeofInt * 6 * objects),
    Op.memcpy Target.elementArrayBuffer (sizeofInt * 6 * objects),
    Op.unmapBuffer Target.elementArrayBuffer,
    Op.useProgram,
    Op.setUniformMat4 Uniform.uView mats.view,
    Op.setUniformMat4 Uniform.uProjection mats.projection,
    Op.setUniformMat4 Uniform.uModel mats.model,
    Op.drawElements indexCount ]

/-- Strategy B frame body (lines 232-253) as the source writes it, as a function
of the value `objects` of the macro `OBJECTS`: the same macro bounds the loop of
line 234 and sizes the windows and copies of lines 240-244. -/
def strategyBFrameFor {F M : Type} [FloatModel F] (objects : Nat) (mats : Matrices M)
    (s : Buffers F) : Buffers F × List (Op M) :=
  let s1 := assemble (instancesFor objects) s
  (s1, strategyBSubmitFor objects mats s1.indexCount)

/-- Index counts of the `glDrawElements` calls of a call sequence, in order. -/
def drawCounts {M : Type} : List (Op M) → List Int
  | [] => []
  | Op.drawElements c :: rest => c :: drawCounts rest
  | _ :: rest => drawCounts rest

/-- Vertex array objects bound by a call sequence, in order. -/
def boundVaos {M : Type} : List (Op M) → List VaoName
  | [] => []
  | Op.bindVertexArray v :: rest => v :: boundVaos rest
  | _ :: rest => boundVaos rest

/-- Matrices pushed to the model uniform by a call sequence, in order. -/
def modelUpdates {M : Type} : List (Op M) → List M
  | [] => []
  | Op.setUniformMat4 Uniform.uModel m :: rest => m :: modelUpdates rest
  | _ :: rest => modelUpdates rest

/-- Matrices with no content, to run the frame bodies on concrete inputs. -/
def unitMatrices : Matrices Unit :=
  { projection := (), view := (), nonTranslatedModel := (), translateZero := fun _ => (), model := () }

/-- `float vertices[OBJECTS * 8]` (line 197): number of elements. -/
def cpuVertexCapacity : Int := OBJECTS * 8

/-- `unsigned int indices[OBJECTS * 6]` (line 198): number of elements. -/
def cpuIndexCapacity : Int := OBJECTS * 6

/-- The offsets stored to between two states of an array, oldest first. -/
def newStores {α : Type} (before after : Mem α) : List Int :=
  after.writes.drop before.writes.length

/-- The offsets `a, a + 1, ..., a + n - 1`. -/
def offsetsFrom (a : Int) (n : Nat) : List Int :=
  (List.range n).map (fun (j : Nat) => a + (j : Int))

/-- The eight floats one `bufferCirlce` call stores, in store order. -/
def quadFloats {F : Type} [FloatModel F] (x y : F) : List F :=
  [ FloatModel.add (FloatModel.ofInt (-1)) x, FloatModel.add (FloatModel.ofInt 1) y,
    FloatModel.add (FloatModel.ofInt 1) x, FloatModel.add (FloatModel.ofInt 1) y,
    FloatModel.add (FloatModel.ofInt (-1)) x, FloatModel.add (FloatModel.ofInt (-1)) y,
    FloatModel.add (FloatModel.ofInt 1) x, FloatModel.add (FloatModel.ofInt (-1)) y ]

/-- The canonical index pattern of the quad (lines 87-90), as added to the
cursor by `bufferCirlce`. -/
def quadPattern : List Int := [1, 3, 2, 0, 1, 2]

/-! ## Lemmas on `bufferCirlce` and the assembly loop -/

section Lemmas

variable {F : Type} [FloatModel F]

theorem bufferCirlce_vertexCount (x y : F) (s : Buffers F) :
    (bufferCirlce x y s).vertexCount = s.vertexCount + 8 := rfl

theorem bufferCirlce_indexCount (x y : F) (s : Buffers F) :
    (bufferCirlce x y s).indexCount = s.indexCount + 6 := rfl

theorem bufferCirlce_vertex_writes (x y : F) (s : Buffers F) :
    (bufferCirlce x y s).vertices.writes =
      s.vertices.writes ++ [s.vertexCount + 0, s.vertexCount + 1, s.vertexCount + 2,
        s.vertexCount + 3, s.vertexCount + 4, s.vertexCount + 5, s.vertexCount + 6,
        s.vertexCount + 7] := by
  simp [bufferCirlce, Mem.store]

theorem bufferCirlce_index_writes (x y : F) (s : Buffers F) :
    (bufferCirlce x y s).indices.writes =
      s.indices.writes ++ [s.indexCount + 0, s.indexCount + 1, s.indexCount + 2,
        s.indexCount + 3, s.indexCount + 4, s.indexCount + 5] := by
  simp [bufferCirlce, Mem.store]

theorem bufferCirlce_vertices_other (x y : F) (s : Buffers F) (p : Int)
    (hp : p < s.vertexCount ∨ s.vertexCount + 8 ≤ p) :
    (bufferCirlce x y s).vertices.cells p = s.vertices.cells p := by
  simp only [bufferCirlce, Mem.store]
  repeat rw [if_neg (by omega)]

theorem bufferCirlce_indices_other (x y : F) (s : Buffers F) (p : Int)
    (hp : p < s.indexCount ∨ s.indexCount + 6 ≤ p) :
    (bufferCirlce x y s).indices.cells p = s.indices.cells p := by
  simp only [bufferCirlce, Mem.store]
  repeat rw [if_neg (by omega)]

theorem bufferCirlce_vertices_own (x y : F) (s : Buffers F) (j : Nat) (hj : j < 8) :
    (bufferCirlce x y s).vertices.cells (s.vertexCount + j) = (quadFloats x y).getD j (FloatModel.ofInt 0) := by
  have h : j = 0 ∨ j = 1 ∨ j = 2 ∨ j = 3 ∨ j = 4 ∨ j = 5 ∨ j = 6 ∨ j = 7 := by omega
  rcases h with h | h | h | h | h | h | h | h <;> subst h <;>
    simp [bufferCirlce, Mem.store, quadFloats]

theorem bufferCirlce_indices_own (x y : F) (s : Buffers F) (j : Nat) (hj : j < 6) :
    (bufferCirlce x y s).indices.cells (s.indexCount + j) =
      toUnsigned (quadPattern.getD j 0 + s.vertexCount) := by
  have h : j = 0 ∨ j = 1 ∨ j = 2 ∨ j = 3 ∨ j = 4 ∨ j = 5 := by omega
  rcases h with h | h | h | h | h | h <;> subst h <;>
    simp [bufferCirlce, Mem.store, quadPattern]

theorem assembleLoop_cons (o : F × F) (rest : List (F × F)) (s : Buffers F) :
    assembleLoop (o :: rest) s = assembleLoop rest (bufferCirlce o.1 o.2 s) := rfl

theorem assembleLoop_vertexCount (offs : List (F × F)) (s : Buffers F) :
    (assembleLoop offs s).vertexCount = s.vertexCount + 8 * (offs.length : Int) := by
  induction offs generalizing s with
  | nil => simp [assembleLoop]
  | cons o rest ih =>
    rw [assembleLoop_cons, ih, bufferCirlce_vertexCount, List.length_cons]
    push_cast; ring

theorem assembleLoop_indexCount (offs : List (F × F)) (s : Buffers F) :
    (assembleLoop offs s).indexCount = s.indexCount + 6 * (offs.length : Int) := by
  induction offs generalizing s with
  | nil => simp [assembleLoop]
  | cons o rest ih =>
    rw [assembleLoop_cons, ih, bufferCirlce_indexCount, List.length_cons]
    push_cast; ring

theorem assembleLoop_vertices_other (offs : List (F × F)) (s : Buffers F) (p : Int)
    (hp : p < s.vertexCount ∨ s.vertexCount + 8 * (offs.length : Int) ≤ p) :
    (assembleLoop offs s).vertices.cells p = s.vertices.cells p := by
  induction offs generalizing s with
  | nil => rfl
  | cons o rest ih =>
    rw [List.length_cons] at hp
    push_cast at hp
    rw [assembleLoop_cons, ih, bufferCirlce_vertices_other]
    · omega
    · rw [bufferCirlce_vertexCount]; omega

theorem assembleLoop_indices_other (offs : List (F × F)) (s : Buffers F) (p : Int)
    (hp : p < s.indexCount ∨ s.indexCount + 6 * (offs.length : Int) ≤ p) :
    (assembleLoop offs s).indices.cells p = s.indices.cells p := by
  induction offs generalizing s with
  | nil => rfl
  | cons o rest ih =>
    rw [List.length_cons] at hp
    push_cast at hp
    rw [assembleLoop_cons, ih, bufferCirlce_indices_other]
    · omega
    · rw [bufferCirlce_indexCount]; omega

theorem assembleLoop_vertices_own (offs : List (F × F)) (s : Buffers F) (k : Nat)
    (hk : k < offs.length) (j : Nat) (hj : j < 8) :
    (assembleLoop offs s).vertices.cells (s.vertexCount + 8 * (k : Int) + j) =
      (quadFloats (offs.get ⟨k, hk⟩).1 (offs.get ⟨k, hk⟩).2).getD j (FloatModel.ofInt 0) := by
  induction offs generalizing s k with
  | nil => simp at hk
  | cons o rest ih =>
    rw [assembleLoop_cons]
    cases k with
    | zero =>
      rw [assembleLoop_vertices_other _ _ _ (by rw [bufferCirlce_vertexCount]; left; push_cast; omega)]
      simpa using bufferCirlce_vertices_own o.1 o.2 s j hj
    | succ k =>
      have hk2 : k < rest.length := by simpa using hk
      have := ih (bufferCirlce o.1 o.2 s) k hk2
      rw [bufferCirlce_vertexCount] at this
      have e : s.vertexCount + 8 * ((k + 1 : Nat) : Int) + (j : Int)
          = s.vertexCount + 8 + 8 * (k : Int) + j := by push_cast; ring
      rw [e, this]
      simp

theorem assembleLoop_indices_own (offs : List (F × F)) (s : Buffers F) (k : Nat)
    (hk : k < offs.length) (j : Nat) (hj : j < 6) :
    (assembleLoop offs s).indices.cells (s.indexCount + 6 * (k : Int) + j) =
      toUnsigned (quadPattern.getD j 0 + (s.vertexCount + 8 * (k : Int))) := by
  induction offs generalizing s k with
  | nil => simp at hk
  | cons o rest ih =>
    rw [assembleLoop_cons]
    cases k with
    | zero =>
      rw [assembleLoop_indices_other _ _ _ (by rw [bufferCirlce_indexCount]; left; push_cast; omega)]
      simpa using bufferCirlce_indices_own o.1 o.2 s j hj
    | succ k =>
      have hk2 : k < rest.length := by simpa using hk
      have := ih (bufferCirlce o.1 o.2 s) k hk2
      rw [bufferCirlce_indexCount, bufferCirlce_vertexCount] at this
      have e : s.indexCount + 6 * ((k + 1 : Nat) : Int) + (j : Int)
          = s.indexCount + 6 + 6 * (k : Int) + j := by push_cast; ring
      have e2 : s.vertexCount + 8 * ((k + 1 : Nat) : Int) = s.vertexCount + 8 + 8 * (k : Int) := by
        push_cast; ring
      rw [e, e2, this]

theorem offsetsFrom_eight_add (a : Int) (n : Nat) :
    offsetsFrom a (8 + n) =
      [a + 0, a + 1, a + 2, a + 3, a + 4, a + 5, a + 6, a + 7] ++ offsetsFrom (a + 8) n := by
  unfold offsetsFrom
  rw [List.range_add, List.map_append, List.map_map]
  congr 1
  apply List.map_congr_left
  intro j _
  simp only [Function.comp_apply]
  push_cast
  ring

theorem offsetsFrom_six_add (a : Int) (n : Nat) :
    offsetsFrom a (6 + n) =
      [a + 0, a + 1, a + 2, a + 3, a + 4, a + 5] ++ offsetsFrom (a + 6) n := by
  unfold offsetsFrom
  rw [List.range_add, List.map_append, List.map_map]
  congr 1
  apply List.map_congr_left
  intro j _
  simp only [Function.comp_apply]
  push_cast
  ring

theorem mem_offsetsFrom (a : Int) (n : Nat) (p : Int) :
    p ∈ offsetsFrom a n ↔ a ≤ p ∧ p < a + n := by
  unfold offsetsFrom
  simp only [List.mem_map, List.mem_range]
  constructor
  · rintro ⟨j, hj, rfl⟩
    omega
  · rintro ⟨h1, h2⟩
    refine ⟨(p - a).toNat, ?_, ?_⟩ <;> omega

theorem assembleLoop_vertex_writes_eq (offs : List (F × F)) (s : Buffers F) :
    (assembleLoop offs s).vertices.writes =
      s.vertices.writes ++ offsetsFrom s.vertexCount (8 * offs.length) := by
  induction offs generalizing s with
  | nil => simp [assembleLoop, offsetsFrom]
  | cons o rest ih =>
    rw [assembleLoop_cons, ih, bufferCirlce_vertex_writes, bufferCirlce_vertexCount,
      List.length_cons, Nat.mul_succ, Nat.add_comm (8 * rest.length) 8, offsetsFrom_eight_add,
      List.append_assoc]

theorem assembleLoop_index_writes_eq (offs : List (F × F)) (s : Buffers F) :
    (assembleLoop offs s).indices.writes =
      s.indices.writes ++ offsetsFrom s.indexCount (6 * offs.length) := by
  induction offs generalizing s with
  | nil => simp [assembleLoop, offsetsFrom]
  | cons o rest ih =>
    rw [assembleLoop_cons, ih, bufferCirlce_index_writes, bufferCirlce_indexCount,
      List.length_cons, Nat.mul_succ, Nat.add_comm (6 * rest.length) 6, offsetsFrom_six_add,
      List.append_assoc]

theorem instancesFor_length (objects : Nat) :
    (instancesFor objects : List (F × F)).length = objects := by
  simp only [instancesFor, List.length_replicate]

theorem sourceInstances_length :
    (sourceInstances : List (F × F)).length = OBJECTS := by
  simp only [sourceInstances, List.length_replicate]

theorem assemble_vertexCount (offs : List (F × F)) (s : Buffers F) :
    (assemble offs s).vertexCount = 8 * (offs.length : Int) := by
  simp [assemble, assembleLoop_vertexCount, resetCursors]

theorem assemble_indexCount (offs : List (F × F)) (s : Buffers F) :
    (assemble offs s).indexCount = 6 * (offs.length : Int) := by
  simp [assemble, assembleLoop_indexCount, resetCursors]

theorem assemble_newStores_vertices (offs : List (F × F)) (s : Buffers F) :
    newStores s.vertices (assemble offs s).vertices = offsetsFrom 0 (8 * offs.length) := by
  simp [newStores, assemble, assembleLoop_vertex_writes_eq, resetCursors]

theorem assemble_newStores_indices (offs : List (F × F)) (s : Buffers F) :
    newStores s.indices (assemble offs s).indices = offsetsFrom 0 (6 * offs.length) := by
  simp [newStores, assemble, assembleLoop_index_writes_eq, resetCursors]

theorem assemble_vertices_own (offs : List (F × F)) (s : Buffers F) (k : Nat)
    (hk : k < offs.length) (j : Nat) (hj : j < 8) :
    (assemble offs s).vertices.cells (8 * (k : Int) + j) =
      (quadFloats (offs.get ⟨k, hk⟩).1 (offs.get ⟨k, hk⟩).2).getD j (FloatModel.ofInt 0) := by
  have := assembleLoop_vertices_own offs (resetCursors s) k hk j hj
  simpa [assemble, resetCursors] using this

theorem assemble_indices_own (offs : List (F × F)) (s : Buffers F) (k : Nat)
    (hk : k < offs.length) (j : Nat) (hj : j < 6) :
    (assemble offs s).indices.cells (6 * (k : Int) + j) =
      toUnsigned (quadPattern.getD j 0 + 8 * (k : Int)) := by
  have := assembleLoop_indices_own offs (resetCursors s) k hk j hj
  simpa [assemble, resetCursors] using this

theorem assemble_vertices_other (offs : List (F × F)) (s : Buffers F) (p : Int)
    (hp : p < 0 ∨ 8 * (offs.length : Int) ≤ p) :
    (assemble offs s).vertices.cells p = s.vertices.cells p := by
  have := assembleLoop_vertices_other offs (resetCursors s) p (by simpa [resetCursors] using hp)
  simpa [assemble, resetCursors] using this

theorem assemble_indices_other (offs : List (F × F)) (s : Buffers F) (p : Int)
    (hp : p < 0 ∨ 6 * (offs.length : Int) ≤ p) :
    (assemble offs s).indices.cells p = s.indices.cells p := by
  have := assembleLoop_indices_other offs (resetCursors s) p (by simpa [resetCursors] using hp)
  simpa [assemble, resetCursors] using this

theorem assemble_take_drop (offs : List (F × F)) (s : Buffers F) (k : Nat) :
    assemble offs s = assembleLoop (offs.drop k) (assemble (offs.take k) s) := by
  simp only [assemble, assembleLoop]
  rw [← List.foldl_append, List.take_append_drop]

theorem strategyALoop_getElem? {M : Type} (mats : Matrices M) (n i : Nat) :
    (strategyALoop mats n)[i]? =
      if i < 2 * n then
        (if i % 2 = 0 then
          some (Op.setUniformMat4 Uniform.uModel (mats.translateZero mats.nonTranslatedModel))
        else some (Op.drawElements 6))
      else none := by
  induction n generalizing i with
  | zero => simp [strategyALoop]
  | succ n ih =>
    match i with
    | 0 => simp [strategyALoop, strategyADraw]
    | 1 => simp [strategyALoop, strategyADraw]; omega
    | i + 2 =>
      have e : (strategyALoop mats (n + 1))[i + 2]? = (strategyALoop mats n)[i]? := by
        simp [strategyALoop, strategyADraw]
      rw [e, ih]
      have h1 : (i + 2 < 2 * (n + 1)) ↔ (i < 2 * n) := by omega
      have h2 : (i + 2) % 2 = i % 2 := by omega
      simp only [h1, h2]

theorem strategyALoop_drawCounts {M : Type} (mats : Matrices M) (n : Nat) :
    drawCounts (strategyALoop mats n) = List.replicate n 6 := by
  induction n with
  | zero => rfl
  | succ n ih => simp [strategyALoop, strategyADraw, drawCounts, ih, List.replicate_succ]

theorem strategyALoop_modelUpdates {M : Type} (mats : Matrices M) (n : Nat) :
    modelUpdates (strategyALoop mats n) =
      List.replicate n (mats.translateZero mats.nonTranslatedModel) := by
  induction n with
  | zero => rfl
  | succ n ih => simp [strategyALoop, strategyADraw, modelUpdates, ih, List.replicate_succ]

theorem strategyALoop_boundVaos {M : Type} (mats : Matrices M) (n : Nat) :
    boundVaos (strategyALoop mats n) = [] := by
  induction n with
  | zero => rfl
  | succ n ih => simp [strategyALoop, strategyADraw, boundVaos, ih]

end Lemmas

/-! ## Strategy B: what the assembly emits -/

/-- C1 (fails on the code): with two instances the assembly stores the index `11`
at index position `7`, although only `4 * 2 = 8` vertices were emitted; with the
instance set of the source (`OBJECTS` instances) it stores `79995` at position
`59995`, although only `40000` vertices were emitted. -/
theorem c1_index_outside_emitted_vertices :
    (¬ ∀ p ∈ newStores zeroBuffers.indices (assemble [(0, 0), (0, 0)] zeroBuffers).indices,
        ((assemble [(0, 0), (0, 0)] zeroBuffers).indices.cells p : Int) < 4 * 2) ∧
    (59995 ∈ newStores zeroBuffers.indices (assemble sourceInstances zeroBuffers).indices ∧
      (assemble sourceInstances zeroBuffers).indices.cells 59995 = 79995 ∧
      ¬ ((79995 : Int) < 4 * (OBJECTS : Int))) := by
  refine ⟨?_, ?_, ?_, by decide⟩
  · intro h
    have h7 := h 7 (by rw [assemble_newStores_indices, mem_offsetsFrom]; decide)
    revert h7
    decide
  · rw [assemble_newStores_indices, mem_offsetsFrom, sourceInstances_length]
    decide
  · have hk : 9999 < (sourceInstances : List (Int × Int)).length := by
      rw [sourceInstances_length]; decide
    have h := assemble_indices_own (sourceInstances : List (Int × Int)) zeroBuffers 9999 hk 1
      (by decide)
    have e : (6 * ((9999 : Nat) : Int) + ((1 : Nat) : Int)) = 59995 := by decide
    rw [e] at h
    rw [h]
    decide

/-- C2: after the per-frame assembly of `N` instances, `indexCount` is `6N`, the
assembly made `6N` index stores and `8N` float stores, and the float cursor
`vertexCount` is `8N`, that is `4N` vertices of `floatsPerVertex = 2` floats each. -/
theorem c2_emitted_counts {F : Type} [FloatModel F] (offs : List (F × F)) (s : Buffers F) :
    (assemble offs s).indexCount = 6 * (offs.length : Int) ∧
    (newStores s.indices (assemble offs s).indices).length = 6 * offs.length ∧
    (assemble offs s).vertexCount = floatsPerVertex * (4 * (offs.length : Int)) ∧
    (assemble offs s).vertexCount / floatsPerVertex = 4 * (offs.length : Int) ∧
    (newStores s.vertices (assemble offs s).vertices).length = 2 * (4 * offs.length) := by
  refine ⟨assemble_indexCount offs s, ?_, ?_, ?_, ?_⟩
  · rw [assemble_newStores_indices]; simp [offsetsFrom]
  · rw [assemble_vertexCount]; simp only [floatsPerVertex]; ring
  · rw [assemble_vertexCount]; simp only [floatsPerVertex]; omega
  · rw [assemble_newStores_vertices]; simp [offsetsFrom]; ring

/-- C3: when the `k`-th instance offset is `(ox, oy)`, after any number `m > k` of
`bufferCirlce` calls of an assembly from reset cursors the floats `8k .. 8k+7`
are `-1+ox, 1+oy, 1+ox, 1+oy, -1+ox, -1+oy, 1+ox, -1+oy`, that is the vertices
`4k .. 4k+3` are `(-1+ox, 1+oy), (1+ox, 1+oy), (-1+ox, -1+oy), (1+ox, -1+oy)`;
calls after the `k`-th leave them as they are. -/
theorem c3_quad_vertices {F : Type} [FloatModel F] (offs : List (F × F)) (s : Buffers F)
    (k m : Nat) (ox oy : F) (hk : offs[k]? = some (ox, oy))
    (hkm : k < m) (hm : m ≤ offs.length) :
    (assemble (offs.take m) s).vertices.cells (8 * (k : Int) + 0)
        = FloatModel.add (FloatModel.ofInt (-1)) ox ∧
    (assemble (offs.take m) s).vertices.cells (8 * (k : Int) + 1)
        = FloatModel.add (FloatModel.ofInt 1) oy ∧
    (assemble (offs.take m) s).vertices.cells (8 * (k : Int) + 2)
        = FloatModel.add (FloatModel.ofInt 1) ox ∧
    (assemble (offs.take m) s).vertices.cells (8 * (k : Int) + 3)
        = FloatModel.add (FloatModel.ofInt 1) oy ∧
    (assemble (offs.take m) s).vertices.cells (8 * (k : Int) + 4)
        = FloatModel.add (FloatModel.ofInt (-1)) ox ∧
    (assemble (offs.take m) s).vertices.cells (8 * (k : Int) + 5)
        = FloatModel.add (FloatModel.ofInt (-1)) oy ∧
    (assemble (offs.take m) s).vertices.cells (8 * (k : Int) + 6)
        = FloatModel.add (FloatModel.ofInt 1) ox ∧
    (assemble (offs.take m) s).vertices.cells (8 * (k : Int) + 7)
        = FloatModel.add (FloatModel.ofInt (-1)) oy := by
  have hk2 : k < (offs.take m).length := by
    rw [List.length_take]; omega
  have hget : (offs.take m).get ⟨k, hk2⟩ = (ox, oy) := by
    have h1 : (offs.take m)[k]? = some (ox, oy) := by
      rw [List.getElem?_take_of_lt hkm]; exact hk
    rw [List.getElem?_eq_getElem hk2] at h1
    simpa using h1
  have key := fun j hj => assemble_vertices_own (offs.take m) s k hk2 j hj
  simp only [hget] at key
  refine ⟨?_, ?_, ?_, ?_, ?_, ?_, ?_, ?_⟩
  · simpa [quadFloats] using key 0 (by decide)
  · simpa [quadFloats] using key 1 (by decide)
  · simpa [quadFloats] using key 2 (by decide)
  · simpa [quadFloats] using key 3 (by decide)
  · simpa [quadFloats] using key 4 (by decide)
  · simpa [quadFloats] using key 5 (by decide)
  · simpa [quadFloats] using key 6 (by decide)
  · simpa [quadFloats] using key 7 (by decide)

/-- C3 at a concrete input: a single instance at `(5, 7)`, and the first of two
instances after both calls. -/
theorem c3_quad_vertices_witness :
    (assemble [((5 : Int), (7 : Int))] zeroBuffers).vertices.cells 0 = 4 ∧
    (assemble [((5 : Int), (7 : Int))] zeroBuffers).vertices.cells 7 = 6 := by
  have h := c3_quad_vertices [((5 : Int), (7 : Int))] zeroBuffers 0 1 5 7 rfl
    (by decide) (by decide)
  exact ⟨h.1, h.2.2.2.2.2.2.2⟩

/-- C4 (fails on the code): the second call (`k = 1`) of an assembly appends the
indices `9, 11, 10, 8, 9, 10`, offset by the float cursor `8k`, and not
`5, 7, 6, 4, 5, 6`; they do not stay within the instance's own vertices `4 .. 7`. -/
theorem c4_second_quad_indices :
    (offsetsFrom 6 6).map (assemble [(0, 0), (0, 0)] zeroBuffers).indices.cells
        = [9, 11, 10, 8, 9, 10] ∧
    (offsetsFrom 6 6).map (assemble [(0, 0), (0, 0)] zeroBuffers).indices.cells
        ≠ [4 * 1 + 1, 4 * 1 + 3, 4 * 1 + 2, 4 * 1 + 0, 4 * 1 + 1, 4 * 1 + 2] ∧
    (assemble [(0, 0)] zeroBuffers).vertexCount / floatsPerVertex = 4 := by
  decide

/-- C5: running the per-frame assembly a second time, on the arrays and cursors
left by the first run, yields the same vertex array, index array, `vertexCount`
and `indexCount`, whatever the arrays held before the first run. -/
theorem c5_assembly_idempotent {F : Type} [FloatModel F] (offs : List (F × F))
    (s : Buffers F) :
    (assemble offs (assemble offs s)).vertices.cells = (assemble offs s).vertices.cells ∧
    (assemble offs (assemble offs s)).indices.cells = (assemble offs s).indices.cells ∧
    (assemble offs (assemble offs s)).vertexCount = (assemble offs s).vertexCount ∧
    (assemble offs (assemble offs s)).indexCount = (assemble offs s).indexCount := by
  refine ⟨?_, ?_, ?_, ?_⟩
  · funext p
    by_cases hp : p < 0 ∨ 8 * (offs.length : Int) ≤ p
    · rw [assemble_vertices_other _ _ _ hp]
    · have hk : (p / 8).toNat < offs.length := by omega
      have hj : (p % 8).toNat < 8 := by omega
      have e : p = 8 * ((p / 8).toNat : Int) + ((p % 8).toNat : Nat) := by omega
      rw [e, assemble_vertices_own _ _ _ hk _ hj, assemble_vertices_own _ _ _ hk _ hj]
  · funext p
    by_cases hp : p < 0 ∨ 6 * (offs.length : Int) ≤ p
    · rw [assemble_indices_other _ _ _ hp]
    · have hk : (p / 6).toNat < offs.length := by omega
      have hj : (p % 6).toNat < 6 := by omega
      have e : p = 6 * ((p / 6).toNat : Int) + ((p % 6).toNat : Nat) := by omega
      rw [e, assemble_indices_own _ _ _ hk _ hj, assemble_indices_own _ _ _ hk _ hj]
  · rw [assemble_vertexCount, assemble_vertexCount]
  · rw [assemble_indexCount, assemble_indexCount]

/-! ## Call sequences of the two strategies -/

/-- C6 (fails on the code): with no instance at all the Strategy B frame still
issues its draw call, with index count `0`. -/
theorem c6_draw_issued_for_zero_instances :
    drawCounts (strategyBFrame unitMatrices ([] : List (Int × Int)) zeroBuffers).2 = [0] ∧
    drawCounts (strategyBFrame unitMatrices ([] : List (Int × Int)) zeroBuffers).2 ≠ [] := by
  decide

/-- C6 as amended: for every instance count `N`, `N = 0` included, one Strategy B
frame issues exactly one indexed draw call, whose index count is the `indexCount`
left by the assembly, `6N`; for the `OBJECTS = 10000` instances of the source
that is one draw call with index count `60000`. -/
theorem c6_strategyB_single_draw {F M : Type} [FloatModel F] (mats : Matrices M)
    (offs : List (F × F)) (s : Buffers F) :
    drawCounts (strategyBFrame mats offs s).2 = [(strategyBFrame mats offs s).1.indexCount] ∧
    drawCounts (strategyBFrame mats offs s).2 = [6 * (offs.length : Int)] ∧
    drawCounts (strategyBFrame mats (sourceInstances : List (F × F)) s).2 = [60000] := by
  refine ⟨rfl, ?_, ?_⟩
  · show [(assemble offs s).indexCount] = _
    rw [assemble_indexCount]
  · show [(assemble sourceInstances s).indexCount] = _
    rw [assemble_indexCount, sourceInstances_length]
    decide

/-- C7: for every instance count `n`, the Strategy A frame binds `squareVao`
exactly once, before the loop, issues exactly `n` draw calls, each with `6`
indices, and updates the model uniform exactly `n` times, each draw call coming
right after one such update; for `n = 0` there is no draw call. -/
theorem c7_strategyA_draws {M : Type} (mats : Matrices M) (n : Nat) :
    boundVaos (strategyAFrame mats n) = [VaoName.squareVao] ∧
    (strategyAFrame mats n)[3]? = some (Op.bindVertexArray VaoName.squareVao) ∧
    drawCounts (strategyAFrame mats n) = List.replicate n 6 ∧
    (drawCounts (strategyAFrame mats n)).length = n ∧
    modelUpdates (strategyAFrame mats n) =
      List.replicate n (mats.translateZero mats.nonTranslatedModel) ∧
    (∀ (i : Nat) (c : Int), (strategyAFrame mats n)[i]? = some (Op.drawElements c) →
      c = 6 ∧ 4 < i ∧
      (strategyAFrame mats n)[i - 1]? =
        some (Op.setUniformMat4 Uniform.uModel (mats.translateZero mats.nonTranslatedModel))) ∧
    drawCounts (strategyAFrame mats 0) = [] := by
  have hd : drawCounts (strategyAFrame mats n) = List.replicate n 6 := by
    simp [strategyAFrame, drawCounts, strategyALoop_drawCounts]
  refine ⟨?_, ?_, hd, ?_, ?_, ?_, rfl⟩
  · simp [strategyAFrame, boundVaos, strategyALoop_boundVaos]
  · simp [strategyAFrame]
  · rw [hd, List.length_replicate]
  · simp [strategyAFrame, modelUpdates, strategyALoop_modelUpdates]
  · intro i c h
    match i, h with
    | 0, h => simp [strategyAFrame] at h
    | 1, h => simp [strategyAFrame] at h
    | 2, h => simp [strategyAFrame] at h
    | 3, h => simp [strategyAFrame] at h
    | i + 4, h =>
      have e : ∀ q : Nat, (strategyAFrame mats n)[q + 4]? = (strategyALoop mats n)[q]? := by
        intro q; simp [strategyAFrame]
      rw [e, strategyALoop_getElem?] at h
      by_cases h1 : i < 2 * n
      · by_cases h2 : i % 2 = 0
        · simp [h1, h2] at h
        · simp only [h1, h2, if_true, if_false, Option.some.injEq, Op.drawElements.injEq] at h
          refine ⟨h.symm, by omega, ?_⟩
          obtain ⟨q, rfl⟩ : ∃ q, i = q + 1 := ⟨i - 1, by omega⟩
          have e2 : q + 1 + 4 - 1 = q + 4 := by omega
          rw [e2, e, strategyALoop_getElem?]
          have h3 : q < 2 * n := by omega
          have h4 : q % 2 = 0 := by omega
          simp [h3, h4]
      · simp [h1] at h

/-- C7 at a concrete input: in a frame of two instances the call at position 5
is a draw call. -/
theorem c7_strategyA_draws_witness :
    (6 : Int) = 6 ∧ 4 < 5 ∧
    (strategyAFrame unitMatrices 2)[5 - 1]? = some (Op.setUniformMat4 Uniform.uModel ()) :=
  (c7_strategyA_draws unitMatrices 2).2.2.2.2.2.1 5 6 (by decide)

/-- For every value `objects` of the macro `OBJECTS`, the assembly the frame runs
stores exactly the float offsets `0 .. 8 * objects - 1` and the index offsets
`0 .. 6 * objects - 1`, all within arrays of `objects * 8` floats and
`objects * 6` entries. -/
theorem strategyBFrameFor_stores {F M : Type} [FloatModel F] (objects : Nat)
    (mats : Matrices M) (s : Buffers F) :
    newStores s.vertices (strategyBFrameFor objects mats s).1.vertices
      = offsetsFrom 0 (8 * objects) ∧
    newStores s.indices (strategyBFrameFor objects mats s).1.indices
      = offsetsFrom 0 (6 * objects) ∧
    (∀ p ∈ newStores s.vertices (strategyBFrameFor objects mats s).1.vertices,
      0 ≤ p ∧ p < (objects : Int) * 8) ∧
    (∀ p ∈ newStores s.indices (strategyBFrameFor objects mats s).1.indices,
      0 ≤ p ∧ p < (objects : Int) * 6) := by
  have hv : newStores s.vertices (strategyBFrameFor objects mats s).1.vertices
      = offsetsFrom 0 (8 * objects) := by
    show newStores s.vertices (assemble (instancesFor objects) s).vertices = _
    rw [assemble_newStores_vertices, instancesFor_length]
  have hi : newStores s.indices (strategyBFrameFor objects mats s).1.indices
      = offsetsFrom 0 (6 * objects) := by
    show newStores s.indices (assemble (instancesFor objects) s).indices = _
    rw [assemble_newStores_indices, instancesFor_length]
  refine ⟨hv, hi, ?_, ?_⟩
  · intro p hp
    rw [hv, mem_offsetsFrom] at hp
    push_cast at hp
    omega
  · intro p hp
    rw [hi, mem_offsetsFrom] at hp
    push_cast at hp
    omega

/-- C10: when at most `OBJECTS` instances are assembled from reset cursors, then
before each `bufferCirlce` call (the state reached by the calls for the first `k`
instances, from which the remaining calls finish the assembly) the cursors are
non-negative with
`vertexCount + 8 ≤ 8 * OBJECTS` and `indexCount + 6 ≤ 6 * OBJECTS`, every store of
the assembly hits a position of the CPU arrays, and the final cursors, in bytes,
do not exceed the sizes that `setupGpuBuffer` allocates. -/
theorem c10_stores_in_bounds {F : Type} [FloatModel F] (offs : List (F × F)) (s : Buffers F)
    (hN : offs.length ≤ OBJECTS) :
    (∀ k, k < offs.length →
      assemble offs s = assembleLoop (offs.drop k) (assemble (offs.take k) s) ∧
      0 ≤ (assemble (offs.take k) s).vertexCount ∧
      (assemble (offs.take k) s).vertexCount + 8 ≤ cpuVertexCapacity ∧
      0 ≤ (assemble (offs.take k) s).indexCount ∧
      (assemble (offs.take k) s).indexCount + 6 ≤ cpuIndexCapacity) ∧
    (∀ p ∈ newStores s.vertices (assemble offs s).vertices, 0 ≤ p ∧ p < cpuVertexCapacity) ∧
    (∀ p ∈ newStores s.indices (assemble offs s).indices, 0 ≤ p ∧ p < cpuIndexCapacity) ∧
    (∃ cv ci : Nat,
      allocatedBytes (setupGpuBuffer : List (Op Unit)) Target.arrayBuffer = some cv ∧
      allocatedBytes (setupGpuBuffer : List (Op Unit)) Target.elementArrayBuffer = some ci ∧
      (assemble offs s).vertexCount * (sizeofFloat : Int) ≤ (cv : Int) ∧
      (assemble offs s).indexCount * (sizeofInt : Int) ≤ (ci : Int)) := by
  refine ⟨?_, ?_, ?_, ?_⟩
  · intro k hk
    refine ⟨assemble_take_drop offs s k, ?_⟩
    rw [assemble_vertexCount, assemble_indexCount, List.length_take]
    simp only [cpuVertexCapacity, cpuIndexCapacity]
    omega
  · intro p hp
    rw [assemble_newStores_vertices, mem_offsetsFrom] at hp
    simp only [cpuVertexCapacity]
    push_cast at hp
    omega
  · intro p hp
    rw [assemble_newStores_indices, mem_offsetsFrom] at hp
    simp only [cpuIndexCapacity]
    push_cast at hp
    omega
  · refine ⟨sizeofFloat * 8 * OBJECTS, sizeofInt * 6 * OBJECTS, rfl, rfl, ?_, ?_⟩
    · rw [assemble_vertexCount]
      simp only [sizeofFloat]
      push_cast
      omega
    · rw [assemble_indexCount]
      simp only [sizeofInt]
      push_cast
      omega

/-- C10 at a concrete input: two instances, arrays initially zero. -/
theorem c10_stores_in_bounds_witness :
    [((0 : Int), (0 : Int)), (0, 0)].length ≤ OBJECTS ∧
    (∀ p ∈ newStores zeroBuffers.vertices
        (assemble [((0 : Int), (0 : Int)), (0, 0)] zeroBuffers).vertices,
      0 ≤ p ∧ p < cpuVertexCapacity) :=
  ⟨by decide, (c10_stores_in_bounds [((0 : Int), (0 : Int)), (0, 0)] zeroBuffers (by decide)).2.1⟩

end RenderingBenchmark
